import Mathlib

/-!
Shallow embedding of `src/scheduler.py` (cost-aware task scheduler).

Modelling conventions:
* Python `float` is modelled by `ℚ` (all arithmetic in the scheduler is
  exact decimal arithmetic on small values; we treat it as exact).
* Python `int` is modelled by `ℤ`; event/metric counters by `ℕ`.
* Wall-clock instants (`time.time()`) are explicit `ℚ` parameters.
* The min-heap `self._queue` (heapq) is modelled as a list kept in
  nondecreasing `priority_score` order: `heappop` takes the head (a minimal
  element), `heappush` is ordered insertion.  This refines heapq's
  pop-the-minimum contract; ties are implementation-defined in both.
* `async` methods run under `self._lock`; each locked region becomes one
  atomic state transition.  The unlocked window while a task's callable runs
  is made explicit by splitting `execute_next` into a dispatch part and a
  completion part, with the dispatched-but-unfinished tasks tracked in the
  `inFlight` field (the code keeps them in the local `affordable_task`
  variable of the suspended `execute_next` coroutine).
* Exceptions become `Except` / `Option` results.
-/

/-- Task priority levels (`TaskPriority` enum, scheduler.py lines 15-20). -/
inductive TaskPriority
  | CRITICAL
  | HIGH
  | NORMAL
  | LOW
deriving DecidableEq, Repr

/-- The numeric value of the enum member (`CRITICAL = 1`, ..., `LOW = 4`). -/
def TaskPriority.value : TaskPriority → ℤ
  | .CRITICAL => 1
  | .HIGH => 2
  | .NORMAL => 3
  | .LOW => 4

/-- Resource budget configuration (`ResourceBudget`, lines 23-36).
Field defaults as in the dataclass. -/
structure ResourceBudget where
  api_calls_per_minute : ℤ := 60
  compute_units : ℚ := 100.0
  memory_mb : ℤ := 512
deriving DecidableEq, Repr

/-- The `__post_init__` validation (lines 30-36): every dimension must be
strictly positive, otherwise `ValueError` is raised. -/
def ResourceBudget.valid (b : ResourceBudget) : Prop :=
  0 < b.api_calls_per_minute ∧ 0 < b.compute_units ∧ 0 < b.memory_mb

instance (b : ResourceBudget) : Decidable b.valid := by
  unfold ResourceBudget.valid; infer_instance

/-- Resource cost of a single task (`TaskCost`, lines 39-45), with the
dataclass defaults. -/
structure TaskCost where
  api_calls : ℤ := 0
  compute_units : ℚ := 1.0
  memory_mb : ℤ := 10
  estimated_duration : ℚ := 1.0
deriving DecidableEq, Repr

/-- `ScheduledTask._calculate_score` (lines 68-86), as a function of the
task's priority, cost and `created_at`, and of the wall clock `now` read by
`time.time()` inside the method. -/
def calculateScore (priority : TaskPriority) (cost : TaskCost)
    (created_at now : ℚ) : ℚ :=
  let base_priority : ℚ := (priority.value : ℚ)
  let cost_factor : ℚ := cost.compute_units + (cost.api_calls : ℚ) * 0.5
  let age_factor : ℚ := (now - created_at) / 60.0
  base_priority * 10.0 + cost_factor * 0.1 - age_factor * 0.5

/-- One queued unit of work (`ScheduledTask`, lines 48-66).  The opaque
callable `func` with its `args`/`kwargs` is not represented: task outcomes
are supplied as oracles at completion time.  `priority_score` is the
`_priority_score` field set once by `__post_init__`. -/
structure ScheduledTask where
  priority_score : ℚ
  priority : TaskPriority
  cost : TaskCost
  task_id : String
  created_at : ℚ
deriving DecidableEq, Repr

/-- Creation of a `ScheduledTask` at wall-clock instant `now`: `created_at`
defaults to `time.time()` and `__post_init__` computes the score with the
same clock reading, so the age term is evaluated at `now = created_at`. -/
def mkScheduledTask (priority : TaskPriority) (cost : TaskCost)
    (task_id : String) (now : ℚ) : ScheduledTask :=
  { priority_score := calculateScore priority cost now now
    priority := priority
    cost := cost
    task_id := task_id
    created_at := now }

/-- Scheduler metrics (`SchedulerMetrics`, lines 89-112).  The
`total_cost_spent` dict of floats is flattened into three fields. -/
structure SchedulerMetrics where
  tasks_queued : ℕ := 0
  tasks_executed : ℕ := 0
  tasks_rejected : ℕ := 0
  tasks_deferred : ℕ := 0
  total_cost_spent_api_calls : ℚ := 0
  total_cost_spent_compute_units : ℚ := 0
  total_cost_spent_memory_mb : ℚ := 0
deriving DecidableEq, Repr

/-- `SchedulerMetrics.record_execution` (lines 102-106). -/
def SchedulerMetrics.record_execution (m : SchedulerMetrics) (cost : TaskCost) :
    SchedulerMetrics :=
  { m with
    tasks_executed := m.tasks_executed + 1
    total_cost_spent_api_calls :=
      m.total_cost_spent_api_calls + (cost.api_calls : ℚ)
    total_cost_spent_compute_units :=
      m.total_cost_spent_compute_units + cost.compute_units
    total_cost_spent_memory_mb :=
      m.total_cost_spent_memory_mb + (cost.memory_mb : ℚ) }

/-- `SchedulerMetrics.record_rejection` (lines 108-109). -/
def SchedulerMetrics.record_rejection (m : SchedulerMetrics) : SchedulerMetrics :=
  { m with tasks_rejected := m.tasks_rejected + 1 }

/-- `SchedulerMetrics.record_deferral` (lines 111-112). -/
def SchedulerMetrics.record_deferral (m : SchedulerMetrics) : SchedulerMetrics :=
  { m with tasks_deferred := m.tasks_deferred + 1 }

/-- The `self._current_usage` dict (lines 155-159).  The `api_calls` key is
initialized but never read or written afterwards. -/
structure UsageDict where
  api_calls : ℤ := 0
  compute_units : ℚ := 0
  memory_mb : ℤ := 0
deriving DecidableEq, Repr

/-- `heapq.heappush` on the sorted-list model of the min-heap: ordered
insertion by `priority_score` (dataclass ordering compares only
`_priority_score`, line 52). -/
def heappush : List ScheduledTask → ScheduledTask → List ScheduledTask
  | [], t => [t]
  | u :: rest, t =>
      if t.priority_score ≤ u.priority_score then t :: u :: rest
      else u :: heappush rest t

/-- Mutable state of one `CostAwareScheduler` instance (lines 142-169).
`inFlight` holds dispatched tasks whose callable has not yet finished (in
the code these live in the local variable of the suspended `execute_next`
call; they are recorded here so the unlock window is observable). -/
structure CostAwareScheduler where
  budget : ResourceBudget
  name : String
  queue : List ScheduledTask
  current_usage : UsageDict
  api_tokens : ℚ
  last_refill : ℚ
  metrics : SchedulerMetrics
  inFlight : List ScheduledTask
deriving DecidableEq, Repr

/-- `CostAwareScheduler.__init__` (lines 142-169) called at wall-clock
instant `now`.  Faithful to the code: `self.budget = budget or
ResourceBudget()` falls back to the defaults, but line 162 then reads
`float(budget.api_calls_per_minute)` from the *argument*, so when `budget`
is `None` the constructor raises `AttributeError` — modelled as `none`. -/
def CostAwareScheduler.mkInit (budget : Option ResourceBudget) (name : String)
    (now : ℚ) : Option CostAwareScheduler :=
  match budget with
  | none => none
  | some b =>
      some { budget := b
             name := name
             queue := []
             current_usage := {}
             api_tokens := (b.api_calls_per_minute : ℚ)
             last_refill := now
             metrics := {}
             inFlight := [] }

/-- `CostAwareScheduler._can_afford` (lines 202-208). -/
def CostAwareScheduler.can_afford (s : CostAwareScheduler) (cost : TaskCost) :
    Bool :=
  decide ((cost.api_calls : ℚ) ≤ s.api_tokens)
  && decide (s.current_usage.compute_units + cost.compute_units
       ≤ s.budget.compute_units)
  && decide (s.current_usage.memory_mb + cost.memory_mb ≤ s.budget.memory_mb)

/-- `CostAwareScheduler._refill_tokens`, one locked refill step executed at
wall-clock instant `now` (lines 190-200). -/
def CostAwareScheduler.refill_tokens (s : CostAwareScheduler) (now : ℚ) :
    CostAwareScheduler :=
  let elapsed := now - s.last_refill
  let tokens_to_add := ((s.budget.api_calls_per_minute : ℚ) / 60.0) * elapsed
  { s with
    api_tokens := min (s.api_tokens + tokens_to_add)
      (s.budget.api_calls_per_minute : ℚ)
    last_refill := now }

/-- The `BudgetExhaustedError` raised by `schedule` (lines 115-117, 252-255);
the formatted message is reduced to the offending task id. -/
inductive ScheduleError
  | budgetExhausted (task_id : String)
deriving DecidableEq, Repr

/-- The task id built at line 237: `f"{self.name}-{int(time.time() * 1000)}"`
(`int` truncates; all wall-clock values are nonnegative, so this is the
floor of the millisecond timestamp). -/
def mkTaskId (name : String) (now : ℚ) : String :=
  name ++ "-" ++ toString ⌊now * 1000⌋

/-- `CostAwareScheduler.schedule` (lines 210-261) called at wall-clock
instant `now`, returning the updated state together with the task id or the
`BudgetExhaustedError`.  A caller-supplied cost is always passed here (the
`cost or TaskCost()` default on line 236 is applied by the caller of this
model). -/
def CostAwareScheduler.schedule (s : CostAwareScheduler)
    (priority : TaskPriority) (cost : TaskCost) (reject_if_no_budget : Bool)
    (now : ℚ) : CostAwareScheduler × Except ScheduleError String :=
  let task_id := mkTaskId s.name now
  let task := mkScheduledTask priority cost task_id now
  if reject_if_no_budget && !(s.can_afford cost) then
    ({ s with metrics := s.metrics.record_rejection },
     Except.error (ScheduleError.budgetExhausted task_id))
  else
    ({ s with
       queue := heappush s.queue task
       metrics := { s.metrics with tasks_queued := s.metrics.tasks_queued + 1 } },
     Except.ok task_id)

/-- The candidate-scan loop of `execute_next` (lines 274-290): starting from
queue `q` with `fuel = min 5 (original queue length)` iterations left and
`skipped` already set aside, pop candidates until one is affordable.
Returns (remaining queue, skipped candidates in pop order, chosen task).
Affordability is judged against the fixed usage/tokens of `s` — the loop
never mutates them, so this matches the code. -/
def findAffordable (s : CostAwareScheduler) :
    ℕ → List ScheduledTask → List ScheduledTask →
    List ScheduledTask × List ScheduledTask × Option ScheduledTask
  | 0, q, skipped => (q, skipped, none)
  | Nat.succ fuel, q, skipped =>
      match q with
      | [] => (q, skipped, none)
      | candidate :: rest =>
          if s.can_afford candidate.cost then (rest, skipped, some candidate)
          else findAffordable s fuel rest (skipped ++ [candidate])

/-- The locked first half of `CostAwareScheduler.execute_next` (lines
270-302): select an affordable task among the top five, count one deferral
per skipped candidate, push the skipped candidates back, and on success
consume API tokens and reserve compute/memory.  The chosen task (if any) is
appended to `inFlight` and returned. -/
def CostAwareScheduler.execute_next_dispatch (s : CostAwareScheduler) :
    CostAwareScheduler × Option ScheduledTask :=
  match s.queue with
  | [] => (s, none)
  | _ :: _ =>
      let r := findAffordable s (min 5 s.queue.length) s.queue []
      let s1 := { s with
        queue := List.foldl heappush r.1 r.2.1
        metrics := { s.metrics with
          tasks_deferred := s.metrics.tasks_deferred + r.2.1.length } }
      match r.2.2 with
      | none => (s1, none)
      | some t =>
          ({ s1 with
             api_tokens := s1.api_tokens - (t.cost.api_calls : ℚ)
             current_usage := { s1.current_usage with
               compute_units :=
                 s1.current_usage.compute_units + t.cost.compute_units
               memory_mb := s1.current_usage.memory_mb + t.cost.memory_mb }
             inFlight := s1.inFlight ++ [t] }, some t)

/-- The locked completion half of `execute_next` (lines 304-321): on success
(lines 308-312) record the execution and release compute/memory; on failure
(lines 316-321) only release compute/memory.  API tokens are not touched in
either branch. -/
def applyCompletion (s : CostAwareScheduler) (cost : TaskCost)
    (success : Bool) : CostAwareScheduler :=
  let released := { s with
    current_usage := { s.current_usage with
      compute_units := s.current_usage.compute_units - cost.compute_units
      memory_mb := s.current_usage.memory_mb - cost.memory_mb } }
  if success then
    { released with metrics := released.metrics.record_execution cost }
  else released

/-- Observable outcome of one full `execute_next` call: `noResult` models
`return None`, `completed` models `return result`, and `raised` models the
bare `raise` on line 321 re-raising the task's exception. -/
inductive ExecOutcome
  | noResult
  | completed (t : ScheduledTask)
  | raised (t : ScheduledTask)
deriving DecidableEq, Repr

/-- One full `CostAwareScheduler.execute_next` call (lines 263-321).  The
opaque callable's behaviour is supplied as the oracle `success`: `true`
means it returned a value, `false` means it raised. -/
def CostAwareScheduler.execute_next (s : CostAwareScheduler) (success : Bool) :
    CostAwareScheduler × ExecOutcome :=
  let p := s.execute_next_dispatch
  match p.2 with
  | none => (p.1, ExecOutcome.noResult)
  | some t =>
      ({ applyCompletion p.1 t.cost success with inFlight := p.1.inFlight.dropLast },
       if success then ExecOutcome.completed t else ExecOutcome.raised t)

/-- Finish the in-flight task at position `i` with the given outcome
(completion half of an `execute_next` call that dispatched that task earlier
and has been suspended in the unlock window since).  Out-of-range indices
are no-ops. -/
def CostAwareScheduler.finish (s : CostAwareScheduler) (i : ℕ)
    (success : Bool) : CostAwareScheduler :=
  match s.inFlight[i]? with
  | none => s
  | some t =>
      { applyCompletion s t.cost success with inFlight := s.inFlight.eraseIdx i }

/-- One atomic (lock-protected) state transition of the scheduler.  A full
`execute_next` call is the `dispatch` event followed, once the callable
finishes, by a `finish` event on the dispatched task; `schedule` and one
wake-up of the refill loop are single events. -/
inductive Event
  | schedule (priority : TaskPriority) (cost : TaskCost)
      (reject_if_no_budget : Bool) (now : ℚ)
  | dispatch
  | finish (i : ℕ) (success : Bool)
  | refill (now : ℚ)
deriving DecidableEq, Repr

/-- Apply one event to the scheduler state. -/
def applyEvent (s : CostAwareScheduler) : Event → CostAwareScheduler
  | .schedule priority cost reject now =>
      (s.schedule priority cost reject now).1
  | .dispatch => s.execute_next_dispatch.1
  | .finish i success => s.finish i success
  | .refill now => s.refill_tokens now

/-- Run a sequence of events from a state. -/
def run (s : CostAwareScheduler) (es : List Event) : CostAwareScheduler :=
  es.foldl applyEvent s

/-- Environment assumptions under which an event is issued, taken from the
spec's data contracts: submitted costs have nonnegative dimensions, and the
wall clock read by the refill loop is monotone (`time.time()` at the refill
is not before the stored `last_refill`). -/
def goodEvent (s : CostAwareScheduler) : Event → Bool
  | .schedule _ cost _ _ =>
      decide (0 ≤ cost.api_calls) && decide (0 ≤ cost.compute_units)
        && decide (0 ≤ cost.memory_mb)
  | .refill now => decide (s.last_refill ≤ now)
  | _ => true

/-- A trace is good when every event satisfies `goodEvent` in the state it
is applied to. -/
def goodTrace : CostAwareScheduler → List Event → Bool
  | _, [] => true
  | s, e :: es => goodEvent s e && goodTrace (applyEvent s e) es

/-- Indicator: the event is a task failure, i.e. a finish of an actually
in-flight task whose callable raised. -/
def failIndicator (s : CostAwareScheduler) : Event → ℕ
  | .finish i false => if i < s.inFlight.length then 1 else 0
  | _ => 0

/-- Number of dispatched tasks along a trace whose callable raised.  The
code keeps no such counter; this specification function counts the
task-failure events of the trace. -/
def failedCount : CostAwareScheduler → List Event → ℕ
  | _, [] => 0
  | s, e :: es => failIndicator s e + failedCount (applyEvent s e) es

/-- The state produced by `CostAwareScheduler(budget=b, name=name)` at
wall-clock instant `t0` (the successful branch of `mkInit`). -/
def initState (b : ResourceBudget) (name : String) (t0 : ℚ) :
    CostAwareScheduler :=
  { budget := b
    name := name
    queue := []
    current_usage := {}
    api_tokens := (b.api_calls_per_minute : ℚ)
    last_refill := t0
    metrics := {}
    inFlight := [] }

/-- A scheduler with the documented default budget. -/
def initScheduler : CostAwareScheduler := initState {} "default" 0

/-- Nonnegativity of all three cost dimensions, as the spec's data contract
for `TaskCost` requires. -/
def costNonneg (c : TaskCost) : Prop :=
  0 ≤ c.api_calls ∧ 0 ≤ c.compute_units ∧ 0 ≤ c.memory_mb

instance (c : TaskCost) : Decidable (costNonneg c) := by
  unfold costNonneg; infer_instance

/-- The inductive invariant behind the budget-safety claim: the budget is
valid, reservations fit under the budget, the token count lies in the
bucket's range, and every queued or in-flight task has a nonnegative cost. -/
def SchedInv (s : CostAwareScheduler) : Prop :=
  s.budget.valid
  ∧ s.current_usage.compute_units ≤ s.budget.compute_units
  ∧ s.current_usage.memory_mb ≤ s.budget.memory_mb
  ∧ 0 ≤ s.api_tokens
  ∧ s.api_tokens ≤ (s.budget.api_calls_per_minute : ℚ)
  ∧ (∀ t ∈ s.queue, costNonneg t.cost)
  ∧ (∀ t ∈ s.inFlight, costNonneg t.cost)

/-- Scores are frozen: every queued task's stored `priority_score` is the
score computed at its creation instant (the age term evaluated at
`now = created_at`), never a rescored value. -/
def FrozenScores (s : CostAwareScheduler) : Prop :=
  ∀ t ∈ s.queue,
    t.priority_score = calculateScore t.priority t.cost t.created_at t.created_at

/-- A concrete task that costs more API calls than a default bucket holds. -/
def tPricey : ScheduledTask :=
  { priority_score := 45.1
    priority := TaskPriority.LOW
    cost := { api_calls := 100 }
    task_id := "pricey-1"
    created_at := 1 }

/-- Concrete state: default-budget scheduler holding only `tPricey`, which
it cannot afford. -/
def sUnaffordable : CostAwareScheduler :=
  { budget := {}
    name := "default"
    queue := [tPricey]
    current_usage := {}
    api_tokens := 60
    last_refill := 0
    metrics := {}
    inFlight := [] }

/-- A concrete cheap task (default cost). -/
def tCheap : ScheduledTask :=
  { priority_score := 20.1
    priority := TaskPriority.HIGH
    cost := {}
    task_id := "cheap-1"
    created_at := 1 }

/-- Concrete state: default-budget scheduler holding only `tCheap`, which
it can easily afford. -/
def sOneCheap : CostAwareScheduler :=
  { budget := {}
    name := "default"
    queue := [tCheap]
    current_usage := {}
    api_tokens := 60
    last_refill := 0
    metrics := {}
    inFlight := [] }

/-- Witness trace: admit a default-cost task, then one refill wake-up at
wall-clock 5. -/
def demoEvents : List Event :=
  [Event.schedule TaskPriority.NORMAL {} false 0, Event.refill 5]

theorem mkInit_some_eq (b : ResourceBudget) (name : String) (t0 : ℚ) :
    CostAwareScheduler.mkInit (some b) name t0 = some (initState b name t0) :=
  rfl

/-!  Helper lemmas about the heap model. -/

theorem heappush_perm (q : List ScheduledTask) (t : ScheduledTask) :
    (heappush q t).Perm (t :: q) := by
  induction q with
  | nil => simp [heappush]
  | cons u rest ih =>
      by_cases h : t.priority_score ≤ u.priority_score
      · simp [heappush, h]
      · simp only [heappush, if_neg h]
        exact (ih.cons u).trans (List.Perm.swap t u rest)

theorem mem_heappush {q : List ScheduledTask} {t u : ScheduledTask} :
    u ∈ heappush q t ↔ u = t ∨ u ∈ q := by
  rw [(heappush_perm q t).mem_iff, List.mem_cons]

theorem length_heappush (q : List ScheduledTask) (t : ScheduledTask) :
    (heappush q t).length = q.length + 1 := by
  rw [(heappush_perm q t).length_eq, List.length_cons]

theorem foldl_heappush_perm (ts q : List ScheduledTask) :
    (List.foldl heappush q ts).Perm (ts ++ q) := by
  induction ts generalizing q with
  | nil => simp
  | cons t ts ih =>
      exact (ih (heappush q t)).trans
        ((List.Perm.append_left ts (heappush_perm q t)).trans List.perm_middle)

/-!  Helper lemmas about the candidate-scan loop. -/

theorem findAffordable_none (s : CostAwareScheduler) :
    ∀ (fuel : ℕ) (q acc : List ScheduledTask),
      (∀ t ∈ q.take fuel, s.can_afford t.cost = false) →
      findAffordable s fuel q acc = (q.drop fuel, acc ++ q.take fuel, none)
  | 0, q, acc, _ => by simp [findAffordable]
  | Nat.succ fuel, [], acc, _ => by simp [findAffordable]
  | Nat.succ fuel, c :: rest, acc, h => by
      have hc : s.can_afford c.cost = false := h c (by simp)
      have hrest : ∀ t ∈ rest.take fuel, s.can_afford t.cost = false := by
        intro t ht
        exact h t (by simp [ht])
      simp [findAffordable, hc, findAffordable_none s fuel rest (acc ++ [c]) hrest]

theorem findAffordable_found (s : CostAwareScheduler) :
    ∀ (fuel : ℕ) (q acc : List ScheduledTask) (t : ScheduledTask),
      (findAffordable s fuel q acc).2.2 = some t →
      s.can_afford t.cost = true
      ∧ acc ++ q
        = (findAffordable s fuel q acc).2.1 ++ t :: (findAffordable s fuel q acc).1
  | 0, q, acc, t, h => by simp [findAffordable] at h
  | Nat.succ fuel, [], acc, t, h => by simp [findAffordable] at h
  | Nat.succ fuel, c :: rest, acc, t, h => by
      by_cases hc : s.can_afford c.cost
      · simp only [findAffordable, if_pos hc] at h ⊢
        obtain rfl : c = t := by simpa using h
        exact ⟨hc, rfl⟩
      · simp only [findAffordable, if_neg hc, Bool.not_eq_true] at h ⊢
        have ih := findAffordable_found s fuel rest (acc ++ [c]) t h
        refine ⟨ih.1, ?_⟩
        have := ih.2
        simpa using this

theorem findAffordable_not_found (s : CostAwareScheduler) :
    ∀ (fuel : ℕ) (q acc : List ScheduledTask),
      (findAffordable s fuel q acc).2.2 = none →
      acc ++ q = (findAffordable s fuel q acc).2.1 ++ (findAffordable s fuel q acc).1
  | 0, q, acc, _ => by simp [findAffordable]
  | Nat.succ fuel, [], acc, _ => by simp [findAffordable]
  | Nat.succ fuel, c :: rest, acc, h => by
      by_cases hc : s.can_afford c.cost
      · simp [findAffordable, hc] at h
      · simp only [findAffordable, if_neg hc, Bool.not_eq_true] at h ⊢
        have := findAffordable_not_found s fuel rest (acc ++ [c]) h
        simpa using this

/-- Full case analysis of the locked half of `execute_next`: the queue is
empty and nothing happens; or no candidate among the scanned prefix is
affordable, the scanned prefix is pushed back and one deferral per scanned
candidate is recorded; or an affordable task `t` is found after skipping
`skipped`, the skipped candidates are pushed back, tokens and reservations
are consumed, and `t` goes in flight. -/
theorem execute_next_dispatch_eq (s : CostAwareScheduler) :
    (s.queue = [] ∧ s.execute_next_dispatch = (s, none))
    ∨ (∃ skipped rem, s.queue = skipped ++ rem
        ∧ s.execute_next_dispatch
          = ({ s with
               queue := List.foldl heappush rem skipped
               metrics := { s.metrics with
                 tasks_deferred := s.metrics.tasks_deferred + skipped.length } },
             none))
    ∨ (∃ skipped t rem, s.queue = skipped ++ t :: rem
        ∧ s.can_afford t.cost = true
        ∧ s.execute_next_dispatch
          = ({ s with
               queue := List.foldl heappush rem skipped
               metrics := { s.metrics with
                 tasks_deferred := s.metrics.tasks_deferred + skipped.length }
               api_tokens := s.api_tokens - (t.cost.api_calls : ℚ)
               current_usage := { s.current_usage with
                 compute_units :=
                   s.current_usage.compute_units + t.cost.compute_units
                 memory_mb := s.current_usage.memory_mb + t.cost.memory_mb }
               inFlight := s.inFlight ++ [t] },
             some t)) := by
  cases hq : s.queue with
  | nil =>
      left
      refine ⟨rfl, ?_⟩
      unfold CostAwareScheduler.execute_next_dispatch
      rw [hq]
  | cons a l =>
      cases hr : (findAffordable s (min 5 (a :: l).length) (a :: l) []).2.2 with
      | none =>
          right; left
          refine ⟨(findAffordable s (min 5 (a :: l).length) (a :: l) []).2.1,
                  (findAffordable s (min 5 (a :: l).length) (a :: l) []).1,
                  ?_, ?_⟩
          · have := findAffordable_not_found s (min 5 (a :: l).length) (a :: l) [] hr
            simpa [hq] using this
          · unfold CostAwareScheduler.execute_next_dispatch
            rw [hq]
            simp only [hr]
      | some t =>
          right; right
          refine ⟨(findAffordable s (min 5 (a :: l).length) (a :: l) []).2.1, t,
                  (findAffordable s (min 5 (a :: l).length) (a :: l) []).1,
                  ?_, (findAffordable_found s _ _ _ t hr).1, ?_⟩
          · have := (findAffordable_found s (min 5 (a :: l).length) (a :: l) [] t hr).2
            simpa [hq] using this
          · unfold CostAwareScheduler.execute_next_dispatch
            rw [hq]
            simp only [hr]

/-- Field-level consequences of a dispatch that selected task `t`. -/
theorem execute_next_dispatch_some (s : CostAwareScheduler) (t : ScheduledTask)
    (h : s.execute_next_dispatch.2 = some t) :
    s.can_afford t.cost = true
    ∧ s.execute_next_dispatch.1.current_usage.compute_units
        = s.current_usage.compute_units + t.cost.compute_units
    ∧ s.execute_next_dispatch.1.current_usage.memory_mb
        = s.current_usage.memory_mb + t.cost.memory_mb
    ∧ s.execute_next_dispatch.1.api_tokens
        = s.api_tokens - (t.cost.api_calls : ℚ)
    ∧ s.execute_next_dispatch.1.metrics.tasks_executed
        = s.metrics.tasks_executed
    ∧ s.execute_next_dispatch.1.metrics.total_cost_spent_api_calls
        = s.metrics.total_cost_spent_api_calls
    ∧ s.execute_next_dispatch.1.metrics.total_cost_spent_compute_units
        = s.metrics.total_cost_spent_compute_units
    ∧ s.execute_next_dispatch.1.metrics.total_cost_spent_memory_mb
        = s.metrics.total_cost_spent_memory_mb := by
  rcases execute_next_dispatch_eq s with ⟨hq, he⟩ | ⟨skipped, rem, hq, he⟩
    | ⟨skipped, t', rem, hq, haff, he⟩
  · rw [he] at h; simp at h
  · rw [he] at h; simp at h
  · rw [he] at h
    obtain rfl : t' = t := by simpa using h
    rw [he]
    exact ⟨haff, rfl, rfl, rfl, rfl, rfl, rfl, rfl⟩

/-- Unfolding of `can_afford` into the three budget conditions. -/
theorem can_afford_eq_true_iff (s : CostAwareScheduler) (cost : TaskCost) :
    s.can_afford cost = true ↔
      ((cost.api_calls : ℚ) ≤ s.api_tokens
        ∧ s.current_usage.compute_units + cost.compute_units
            ≤ s.budget.compute_units
        ∧ s.current_usage.memory_mb + cost.memory_mb ≤ s.budget.memory_mb) := by
  simp [CostAwareScheduler.can_afford, and_assoc]

/-- Evaluation of the dispatch half on the concrete state `sOneCheap`: the
single cheap task is selected. -/
theorem sOneCheap_dispatch : sOneCheap.execute_next_dispatch.2 = some tCheap := by
  have haff : sOneCheap.can_afford tCheap.cost = true := by
    rw [can_afford_eq_true_iff]
    refine ⟨?_, ?_, ?_⟩ <;> norm_num [sOneCheap, tCheap]
  have hfa : findAffordable sOneCheap 1 [tCheap] [] = ([], [], some tCheap) := by
    rw [show (1 : ℕ) = Nat.succ 0 from rfl]
    simp [findAffordable, haff]
  have hq : sOneCheap.queue = [tCheap] := rfl
  unfold CostAwareScheduler.execute_next_dispatch
  rw [hq]
  simp [hfa]

/-- C1: the claim says constructing a scheduler with the budget argument
omitted (or None) succeeds and yields the documented default budget with 60
available API tokens.  The code instead crashes: line 162 reads
`budget.api_calls_per_minute` from the `None` argument, raising
`AttributeError`, which the model renders as `none`. -/
theorem C1_construction_without_budget_crashes (name : String) (now : ℚ) :
    CostAwareScheduler.mkInit none name now = none := rfl

/-- C4: `can_afford(cost)` returns true if and only if the API-token,
compute-reservation and memory-reservation conditions all hold. -/
theorem C4_can_afford_characterization (s : CostAwareScheduler)
    (cost : TaskCost) :
    s.can_afford cost = true ↔
      (s.api_tokens ≥ (cost.api_calls : ℚ)
        ∧ s.current_usage.compute_units + cost.compute_units
            ≤ s.budget.compute_units
        ∧ s.current_usage.memory_mb + cost.memory_mb ≤ s.budget.memory_mb) := by
  simp [CostAwareScheduler.can_afford, and_assoc, ge_iff_le]

/-- C9: the claim says task ids are unique per scheduler instance even for
submissions close together in time.  The code builds the id from the
millisecond timestamp only, so two schedule calls at distinct instants
within the same millisecond (here 1 s and 1.0005 s) return the same id
`"default-1000"`. -/
theorem C9_duplicate_task_ids :
    ((1 : ℚ) ≠ 1 + 1 / 2000)
    ∧ (initScheduler.schedule TaskPriority.NORMAL {} false 1).2
        = Except.ok "default-1000"
    ∧ ((initScheduler.schedule TaskPriority.NORMAL {} false 1).1.schedule
        TaskPriority.NORMAL {} false (1 + 1 / 2000)).2
        = Except.ok "default-1000" := by
  have h1 : (⌊(1 : ℚ) * 1000⌋ : ℤ) = 1000 := by norm_num
  have h2 : (⌊((1 : ℚ) + 1 / 2000) * 1000⌋ : ℤ) = 1000 := by norm_num
  refine ⟨by norm_num, ?_, ?_⟩
  · simp only [CostAwareScheduler.schedule, mkTaskId, initScheduler, initState,
      Bool.false_and, Bool.false_eq_true, if_false, h1, Except.ok.injEq]
    decide
  · simp only [CostAwareScheduler.schedule, mkTaskId, initScheduler, initState,
      Bool.false_and, Bool.false_eq_true, if_false, h1, h2, Except.ok.injEq]
    decide

/-- C7: `schedule` raises `BudgetExhausted` iff `reject_if_no_budget` is
true and `can_afford(cost)` is false at submission; on rejection the queue
and `tasks_queued` are unchanged and `tasks_rejected` is incremented by
one. -/
theorem C7_rejection_behaviour (s : CostAwareScheduler)
    (priority : TaskPriority) (cost : TaskCost) (reject_if_no_budget : Bool)
    (now : ℚ) :
    ((∃ e, (s.schedule priority cost reject_if_no_budget now).2
        = Except.error e)
      ↔ (reject_if_no_budget = true ∧ s.can_afford cost = false))
    ∧ (reject_if_no_budget = true → s.can_afford cost = false →
        (s.schedule priority cost reject_if_no_budget now).1.queue = s.queue
        ∧ (s.schedule priority cost reject_if_no_budget now).1.metrics.tasks_queued
            = s.metrics.tasks_queued
        ∧ (s.schedule priority cost reject_if_no_budget now).1.metrics.tasks_rejected
            = s.metrics.tasks_rejected + 1) := by
  cases reject_if_no_budget <;> cases hca : s.can_afford cost <;>
    simp [CostAwareScheduler.schedule, hca, SchedulerMetrics.record_rejection]

theorem C7_rejection_behaviour_witness :
    (initScheduler.schedule TaskPriority.NORMAL { api_calls := 61 } true 0).1.queue
        = initScheduler.queue
    ∧ (initScheduler.schedule TaskPriority.NORMAL { api_calls := 61 } true 0).1.metrics.tasks_queued
        = initScheduler.metrics.tasks_queued
    ∧ (initScheduler.schedule TaskPriority.NORMAL { api_calls := 61 } true 0).1.metrics.tasks_rejected
        = initScheduler.metrics.tasks_rejected + 1 :=
  (C7_rejection_behaviour initScheduler TaskPriority.NORMAL
    { api_calls := 61 } true 0).2 rfl
    (by
      rw [Bool.eq_false_iff, Ne, can_afford_eq_true_iff]
      rintro ⟨h1, -, -⟩
      norm_num [initScheduler, initState] at h1)

/-- C6: when the dispatched task's callable raises, `execute_next` re-raises
the exception, leaves `tasks_executed` unincremented, subtracts the
compute/memory reservations back from `current_usage` (restoring the
pre-dispatch values), and does not return the API tokens consumed at
dispatch. -/
theorem C6_failure_releases_reservations (s : CostAwareScheduler)
    (t : ScheduledTask) (h : s.execute_next_dispatch.2 = some t) :
    (s.execute_next false).2 = ExecOutcome.raised t
    ∧ (s.execute_next false).1.metrics.tasks_executed = s.metrics.tasks_executed
    ∧ (s.execute_next false).1.current_usage.compute_units
        = s.current_usage.compute_units
    ∧ (s.execute_next false).1.current_usage.memory_mb
        = s.current_usage.memory_mb
    ∧ (s.execute_next false).1.api_tokens
        = s.api_tokens - (t.cost.api_calls : ℚ) := by
  obtain ⟨-, hcu, hmm, htok, hex, -, -, -⟩ := execute_next_dispatch_some s t h
  unfold CostAwareScheduler.execute_next
  simp only [h, applyCompletion, Bool.false_eq_true, if_false]
  refine ⟨trivial, hex, ?_, ?_, htok⟩
  · rw [hcu]; ring
  · rw [hmm]; ring

theorem C6_failure_releases_reservations_witness :
    (sOneCheap.execute_next false).2 = ExecOutcome.raised tCheap
    ∧ (sOneCheap.execute_next false).1.metrics.tasks_executed
        = sOneCheap.metrics.tasks_executed
    ∧ (sOneCheap.execute_next false).1.current_usage.compute_units
        = sOneCheap.current_usage.compute_units
    ∧ (sOneCheap.execute_next false).1.current_usage.memory_mb
        = sOneCheap.current_usage.memory_mb
    ∧ (sOneCheap.execute_next false).1.api_tokens
        = sOneCheap.api_tokens - (tCheap.cost.api_calls : ℚ) :=
  C6_failure_releases_reservations sOneCheap tCheap sOneCheap_dispatch

/-- C10: `total_cost_spent` accumulates only successfully completed tasks:
on a failing task none of the three dimensions is added (while the API
tokens consumed at dispatch stay consumed), and on a successful task all
three dimensions are added. -/
theorem C10_total_cost_spent_success_only (s : CostAwareScheduler)
    (t : ScheduledTask) (h : s.execute_next_dispatch.2 = some t) :
    ((s.execute_next false).1.metrics.total_cost_spent_api_calls
        = s.metrics.total_cost_spent_api_calls
      ∧ (s.execute_next false).1.metrics.total_cost_spent_compute_units
        = s.metrics.total_cost_spent_compute_units
      ∧ (s.execute_next false).1.metrics.total_cost_spent_memory_mb
        = s.metrics.total_cost_spent_memory_mb
      ∧ (s.execute_next false).1.api_tokens
        = s.api_tokens - (t.cost.api_calls : ℚ))
    ∧ ((s.execute_next true).1.metrics.total_cost_spent_api_calls
        = s.metrics.total_cost_spent_api_calls + (t.cost.api_calls : ℚ)
      ∧ (s.execute_next true).1.metrics.total_cost_spent_compute_units
        = s.metrics.total_cost_spent_compute_units + t.cost.compute_units
      ∧ (s.execute_next true).1.metrics.total_cost_spent_memory_mb
        = s.metrics.total_cost_spent_memory_mb + (t.cost.memory_mb : ℚ)) := by
  obtain ⟨-, -, -, htok, -, hs1, hs2, hs3⟩ := execute_next_dispatch_some s t h
  unfold CostAwareScheduler.execute_next
  simp only [h, applyCompletion, SchedulerMetrics.record_execution,
    Bool.false_eq_true, if_false, if_true]
  exact ⟨⟨hs1, hs2, hs3, htok⟩, by rw [hs1], by rw [hs2], by rw [hs3]⟩

theorem C10_total_cost_spent_success_only_witness :
    ((sOneCheap.execute_next false).1.metrics.total_cost_spent_api_calls
        = sOneCheap.metrics.total_cost_spent_api_calls
      ∧ (sOneCheap.execute_next false).1.metrics.total_cost_spent_compute_units
        = sOneCheap.metrics.total_cost_spent_compute_units
      ∧ (sOneCheap.execute_next false).1.metrics.total_cost_spent_memory_mb
        = sOneCheap.metrics.total_cost_spent_memory_mb
      ∧ (sOneCheap.execute_next false).1.api_tokens
        = sOneCheap.api_tokens - (tCheap.cost.api_calls : ℚ))
    ∧ ((sOneCheap.execute_next true).1.metrics.total_cost_spent_api_calls
        = sOneCheap.metrics.total_cost_spent_api_calls + (tCheap.cost.api_calls : ℚ)
      ∧ (sOneCheap.execute_next true).1.metrics.total_cost_spent_compute_units
        = sOneCheap.metrics.total_cost_spent_compute_units + tCheap.cost.compute_units
      ∧ (sOneCheap.execute_next true).1.metrics.total_cost_spent_memory_mb
        = sOneCheap.metrics.total_cost_spent_memory_mb + (tCheap.cost.memory_mb : ℚ)) :=
  C10_total_cost_spent_success_only sOneCheap tCheap sOneCheap_dispatch

theorem mem_foldl_heappush {u : ScheduledTask} {ts q : List ScheduledTask} :
    u ∈ List.foldl heappush q ts ↔ u ∈ ts ∨ u ∈ q := by
  rw [(foldl_heappush_perm ts q).mem_iff, List.mem_append]

theorem finish_queue (s : CostAwareScheduler) (i : ℕ) (b : Bool) :
    (s.finish i b).queue = s.queue := by
  unfold CostAwareScheduler.finish
  cases s.inFlight[i]? <;> cases b <;> rfl

theorem finish_budget (s : CostAwareScheduler) (i : ℕ) (b : Bool) :
    (s.finish i b).budget = s.budget := by
  unfold CostAwareScheduler.finish
  cases s.inFlight[i]? <;> cases b <;> rfl

theorem finish_api_tokens (s : CostAwareScheduler) (i : ℕ) (b : Bool) :
    (s.finish i b).api_tokens = s.api_tokens := by
  unfold CostAwareScheduler.finish
  cases s.inFlight[i]? <;> cases b <;> rfl

/-- One event preserves frozen scores. -/
theorem frozenScores_applyEvent (s : CostAwareScheduler) (e : Event)
    (h : FrozenScores s) : FrozenScores (applyEvent s e) := by
  cases e with
  | schedule priority cost reject now =>
      simp only [applyEvent, CostAwareScheduler.schedule]
      by_cases hc : (reject && !(s.can_afford cost)) = true
      · simpa only [if_pos hc] using h
      · simp only [if_neg hc]
        intro t ht
        rcases mem_heappush.mp ht with rfl | ht'
        · rfl
        · exact h t ht'
  | dispatch =>
      rcases execute_next_dispatch_eq s with ⟨hq, he⟩ | ⟨skipped, rem, hq, he⟩
        | ⟨skipped, t, rem, hq, haff, he⟩
      · simpa only [applyEvent, he] using h
      · simp only [applyEvent, he]
        intro u hu
        rcases mem_foldl_heappush.mp hu with h1 | h2
        · exact h u (by rw [hq]; exact List.mem_append_left _ h1)
        · exact h u (by rw [hq]; exact List.mem_append_right _ h2)
      · simp only [applyEvent, he]
        intro u hu
        rcases mem_foldl_heappush.mp hu with h1 | h2
        · exact h u (by rw [hq]; exact List.mem_append_left _ h1)
        · exact h u
            (by rw [hq]; exact List.mem_append_right _ (List.mem_cons_of_mem _ h2))
  | finish i success =>
      simp only [applyEvent]
      intro u hu
      rw [finish_queue] at hu
      exact h u hu
  | refill now => exact h

/-- A whole trace preserves frozen scores. -/
theorem frozenScores_run :
    ∀ (es : List Event) (s : CostAwareScheduler),
      FrozenScores s → FrozenScores (run s es)
  | [], _, h => h
  | e :: es, s, h =>
      frozenScores_run es (applyEvent s e) (frozenScores_applyEvent s e h)

/-- C3: the stored priority score equals
`p.value * 10.0 + (compute_units + api_calls * 0.5) * 0.1 - ((now - created_at) / 60) * 0.5`,
it is computed once at task creation, and queued tasks keep that frozen
score (their stored score is always the one computed with the age term
evaluated at the creation instant, never a later rescoring). -/
theorem C3_priority_score_frozen (priority : TaskPriority) (cost : TaskCost)
    (created_at now : ℚ) (b : ResourceBudget) (name : String) (t0 : ℚ)
    (es : List Event) (t : ScheduledTask)
    (ht : t ∈ (run (initState b name t0) es).queue) :
    calculateScore priority cost created_at now
      = (priority.value : ℚ) * 10.0
        + (cost.compute_units + (cost.api_calls : ℚ) * 0.5) * 0.1
        - ((now - created_at) / 60.0) * 0.5
    ∧ t.priority_score
        = calculateScore t.priority t.cost t.created_at t.created_at := by
  refine ⟨rfl, ?_⟩
  have hfr : FrozenScores (initState b name t0) := by
    intro u hu
    exact absurd hu (List.not_mem_nil u)
  exact frozenScores_run es (initState b name t0) hfr t ht

theorem C3_priority_score_frozen_witness :
    calculateScore TaskPriority.NORMAL {} 0 0
      = (TaskPriority.NORMAL.value : ℚ) * 10.0
        + (({} : TaskCost).compute_units + (({} : TaskCost).api_calls : ℚ) * 0.5)
            * 0.1
        - (((0 : ℚ) - 0) / 60.0) * 0.5
    ∧ (mkScheduledTask TaskPriority.NORMAL {} (mkTaskId "default" 0) 0).priority_score
        = calculateScore
            (mkScheduledTask TaskPriority.NORMAL {} (mkTaskId "default" 0) 0).priority
            (mkScheduledTask TaskPriority.NORMAL {} (mkTaskId "default" 0) 0).cost
            (mkScheduledTask TaskPriority.NORMAL {} (mkTaskId "default" 0) 0).created_at
            (mkScheduledTask TaskPriority.NORMAL {} (mkTaskId "default" 0) 0).created_at :=
  C3_priority_score_frozen TaskPriority.NORMAL {} 0 0 {} "default" 0
    [Event.schedule TaskPriority.NORMAL {} false 0]
    (mkScheduledTask TaskPriority.NORMAL {} (mkTaskId "default" 0) 0)
    (by
      rw [show (run (initState {} "default" 0)
          [Event.schedule TaskPriority.NORMAL {} false 0]).queue
          = [mkScheduledTask TaskPriority.NORMAL {} (mkTaskId "default" 0) 0]
        from rfl]
      exact List.mem_singleton.mpr rfl)

/-- C5: when the queue is non-empty and each of the top `min 5 length`
tasks is unaffordable, `execute_next` returns no result, increments
`tasks_deferred` by exactly the number of tasks inspected, leaves the
multiset of queued tasks unchanged, and consumes no tokens or
reservations. -/
theorem C5_all_top_unaffordable (s : CostAwareScheduler) (success : Bool)
    (hne : s.queue ≠ [])
    (hun : ∀ t ∈ s.queue.take 5, s.can_afford t.cost = false) :
    (s.execute_next success).2 = ExecOutcome.noResult
    ∧ (s.execute_next success).1.metrics.tasks_deferred
        = s.metrics.tasks_deferred + min 5 s.queue.length
    ∧ (s.execute_next success).1.queue.Perm s.queue
    ∧ (s.execute_next success).1.api_tokens = s.api_tokens
    ∧ (s.execute_next success).1.current_usage = s.current_usage := by
  obtain ⟨a, l, hq⟩ := List.exists_cons_of_ne_nil hne
  have hsub : ∀ t ∈ s.queue.take (min 5 s.queue.length), t ∈ s.queue.take 5 := by
    intro t ht
    have h5 : s.queue.take (min 5 s.queue.length)
        = (s.queue.take 5).take (min 5 s.queue.length) := by
      rw [List.take_take, min_eq_left (min_le_left _ _)]
    rw [h5] at ht
    exact List.take_subset _ _ ht
  have hta : ∀ t ∈ (a :: l).take (min 5 (a :: l).length),
      s.can_afford t.cost = false := by
    rw [← hq]
    exact fun t ht => hun t (hsub t ht)
  have hfa := findAffordable_none s (min 5 (a :: l).length) (a :: l) [] hta
  have hd : s.execute_next_dispatch
      = ({ s with
           queue := List.foldl heappush ((a :: l).drop (min 5 (a :: l).length))
             ((a :: l).take (min 5 (a :: l).length))
           metrics := { s.metrics with
             tasks_deferred := s.metrics.tasks_deferred
               + ((a :: l).take (min 5 (a :: l).length)).length } }, none) := by
    unfold CostAwareScheduler.execute_next_dispatch
    rw [hq]
    simp only [hfa, List.nil_append]
  have hlen : ((a :: l).take (min 5 (a :: l).length)).length
      = min 5 (a :: l).length := by
    rw [List.length_take, min_assoc, min_self]
  have hperm : (List.foldl heappush ((a :: l).drop (min 5 (a :: l).length))
      ((a :: l).take (min 5 (a :: l).length))).Perm (a :: l) := by
    have := foldl_heappush_perm ((a :: l).take (min 5 (a :: l).length))
      ((a :: l).drop (min 5 (a :: l).length))
    rwa [List.take_append_drop] at this
  have he : s.execute_next success
      = (s.execute_next_dispatch.1, ExecOutcome.noResult) := by
    unfold CostAwareScheduler.execute_next
    rw [hd]
  rw [he, hd]
  refine ⟨rfl, ?_, ?_, rfl, rfl⟩
  · rw [hq]
    exact congrArg (s.metrics.tasks_deferred + ·) hlen
  · rw [hq]
    exact hperm

theorem C5_all_top_unaffordable_witness :
    (sUnaffordable.execute_next true).2 = ExecOutcome.noResult
    ∧ (sUnaffordable.execute_next true).1.metrics.tasks_deferred
        = sUnaffordable.metrics.tasks_deferred + min 5 sUnaffordable.queue.length
    ∧ (sUnaffordable.execute_next true).1.queue.Perm sUnaffordable.queue
    ∧ (sUnaffordable.execute_next true).1.api_tokens = sUnaffordable.api_tokens
    ∧ (sUnaffordable.execute_next true).1.current_usage
        = sUnaffordable.current_usage :=
  C5_all_top_unaffordable sUnaffordable true (List.cons_ne_nil _ _)
    (by
      intro t ht
      have hq : sUnaffordable.queue = [tPricey] := rfl
      rw [hq] at ht
      have ht' : t = tPricey := by simpa using ht
      subst ht'
      rw [Bool.eq_false_iff, Ne, can_afford_eq_true_iff]
      rintro ⟨h1, -, -⟩
      norm_num [sUnaffordable, tPricey] at h1)

/-- The conservation step: one event changes the bookkeeping equation by
exactly the failure indicator of that event. -/
theorem conserved_applyEvent (s : CostAwareScheduler) (e : Event) (lost : ℕ)
    (h : s.metrics.tasks_queued
      = s.queue.length + s.metrics.tasks_executed + s.inFlight.length + lost) :
    (applyEvent s e).metrics.tasks_queued
      = (applyEvent s e).queue.length + (applyEvent s e).metrics.tasks_executed
        + (applyEvent s e).inFlight.length + (lost + failIndicator s e) := by
  cases e with
  | schedule priority cost reject now =>
      simp only [applyEvent, CostAwareScheduler.schedule, failIndicator]
      by_cases hc : (reject && !(s.can_afford cost)) = true
      · simpa only [if_pos hc, SchedulerMetrics.record_rejection] using h
      · simp only [if_neg hc, length_heappush]
        omega
  | dispatch =>
      simp only [applyEvent, failIndicator]
      rcases execute_next_dispatch_eq s with ⟨hq, he⟩ | ⟨skipped, rem, hq, he⟩
        | ⟨skipped, t, rem, hq, haff, he⟩
      · simp only [he]
        omega
      · simp only [he]
        have hl : (List.foldl heappush rem skipped).length
            = skipped.length + rem.length := by
          rw [(foldl_heappush_perm skipped rem).length_eq, List.length_append]
        have hql : s.queue.length = skipped.length + rem.length := by
          rw [hq, List.length_append]
        simp only [hl]
        omega
      · simp only [he]
        have hl : (List.foldl heappush rem skipped).length
            = skipped.length + rem.length := by
          rw [(foldl_heappush_perm skipped rem).length_eq, List.length_append]
        have hql : s.queue.length = skipped.length + rem.length + 1 := by
          rw [hq, List.length_append, List.length_cons]
          omega
        have hfl : (s.inFlight ++ [t]).length = s.inFlight.length + 1 := by
          rw [List.length_append, List.length_cons, List.length_nil]
        simp only [hl, hfl]
        omega
  | finish i success =>
      simp only [applyEvent, CostAwareScheduler.finish, failIndicator]
      cases hgi : s.inFlight[i]? with
      | none =>
          have hge : ¬ i < s.inFlight.length := by
            intro hlt
            rw [List.getElem?_eq_getElem hlt] at hgi
            cases hgi
          cases success <;> simp only [if_neg hge] <;> omega
      | some t =>
          have hlt : i < s.inFlight.length := by
            by_contra hge
            rw [List.getElem?_eq_none (Nat.le_of_not_lt hge)] at hgi
            cases hgi
          have hel : (s.inFlight.eraseIdx i).length = s.inFlight.length - 1 := by
            simp [List.length_eraseIdx, hlt]
          cases success <;>
        simp only [applyCompletion, SchedulerMetrics.record_execution,
          Bool.false_eq_true, if_false, if_true, if_pos hlt, hel] <;>
        omega
  | refill now =>
      simp only [applyEvent, CostAwareScheduler.refill_tokens, failIndicator]
      omega

/-- The conservation equation along a whole trace, relative to the number
of already-lost (failed) tasks. -/
theorem conserved_run :
    ∀ (es : List Event) (s : CostAwareScheduler) (lost : ℕ),
      s.metrics.tasks_queued
        = s.queue.length + s.metrics.tasks_executed + s.inFlight.length + lost →
      (run s es).metrics.tasks_queued
        = (run s es).queue.length + (run s es).metrics.tasks_executed
          + (run s es).inFlight.length + (lost + failedCount s es)
  | [], s, lost, h => by simpa [run, failedCount] using h
  | e :: es, s, lost, h => by
      have hstep := conserved_applyEvent s e lost h
      have hrest := conserved_run es (applyEvent s e) (lost + failIndicator s e) hstep
      have hr : run s (e :: es) = run (applyEvent s e) es := rfl
      have hf : failedCount s (e :: es)
          = failIndicator s e + failedCount (applyEvent s e) es := rfl
      rw [hr, hf, hrest]
      omega

/-- C2 counterexample: from a fresh default scheduler, a single rejected
submission (61 API calls with `reject_if_no_budget` set) leaves
`tasks_queued = 0` but `tasks_rejected = 1`, so the claimed equation
`tasks_queued − (queue_size + tasks_executed + tasks_rejected +
tasks_currently_executing) = 0` evaluates to `−1 ≠ 0`, with no task
mid-execution. -/
theorem C2_conservation_counterexample :
    ((run initScheduler
        [Event.schedule TaskPriority.NORMAL { api_calls := 61 } true 0]).metrics.tasks_queued : ℤ)
      - (((run initScheduler
            [Event.schedule TaskPriority.NORMAL { api_calls := 61 } true 0]).queue.length : ℤ)
        + ((run initScheduler
            [Event.schedule TaskPriority.NORMAL { api_calls := 61 } true 0]).metrics.tasks_executed : ℤ)
        + ((run initScheduler
            [Event.schedule TaskPriority.NORMAL { api_calls := 61 } true 0]).metrics.tasks_rejected : ℤ)
        + ((run initScheduler
            [Event.schedule TaskPriority.NORMAL { api_calls := 61 } true 0]).inFlight.length : ℤ))
      ≠ 0 := by
  have hca : initScheduler.can_afford { api_calls := 61 } = false := by
    rw [Bool.eq_false_iff, Ne, can_afford_eq_true_iff]
    rintro ⟨h1, -, -⟩
    norm_num [initScheduler, initState] at h1
  have hrun : run initScheduler
      [Event.schedule TaskPriority.NORMAL { api_calls := 61 } true 0]
      = { initScheduler with
          metrics := initScheduler.metrics.record_rejection } := by
    show (initScheduler.schedule TaskPriority.NORMAL { api_calls := 61 } true 0).1
      = _
    simp [CostAwareScheduler.schedule, hca]
  rw [hrun]
  norm_num [initScheduler, initState, SchedulerMetrics.record_rejection]

/-- C2 amended: the conservation law holds with `tasks_rejected` removed
and the number of failed dispatches added: at every point,
`tasks_queued = queue_size + tasks_executed + tasks_currently_executing +
failed_count`.  Rejected submissions never increment `tasks_queued` (so
`tasks_rejected` does not belong in the equation), and a dispatched task
whose callable raised leaves `tasks_queued` without incrementing
`tasks_executed` (so the failure count must close the balance). -/
theorem C2_conservation_amended (b : ResourceBudget) (name : String) (t0 : ℚ)
    (es : List Event) :
    (run (initState b name t0) es).metrics.tasks_queued
      = (run (initState b name t0) es).queue.length
        + (run (initState b name t0) es).metrics.tasks_executed
        + (run (initState b name t0) es).inFlight.length
        + failedCount (initState b name t0) es := by
  have h0 : (initState b name t0).metrics.tasks_queued
      = (initState b name t0).queue.length
        + (initState b name t0).metrics.tasks_executed
        + (initState b name t0).inFlight.length + 0 := rfl
  simpa using conserved_run es (initState b name t0) 0 h0

/-- One good event preserves the budget-safety invariant. -/
theorem schedInv_applyEvent (s : CostAwareScheduler) (e : Event)
    (hInv : SchedInv s) (hg : goodEvent s e = true) :
    SchedInv (applyEvent s e) := by
  obtain ⟨hvalid, hcu, hmm, htok0, htokc, hqn, hfn⟩ := hInv
  cases e with
  | schedule priority cost reject now =>
      have hcost : costNonneg cost := by
        simpa [goodEvent, costNonneg, and_assoc] using hg
      simp only [applyEvent, CostAwareScheduler.schedule]
      by_cases hc : (reject && !(s.can_afford cost)) = true
      · simp only [if_pos hc]
        exact ⟨hvalid, hcu, hmm, htok0, htokc, hqn, hfn⟩
      · simp only [if_neg hc]
        refine ⟨hvalid, hcu, hmm, htok0, htokc, ?_, hfn⟩
        intro t ht
        rcases mem_heappush.mp ht with rfl | ht'
        · exact hcost
        · exact hqn t ht'
  | dispatch =>
      rcases execute_next_dispatch_eq s with ⟨hq, he⟩ | ⟨skipped, rem, hq, he⟩
        | ⟨skipped, t, rem, hq, haff, he⟩
      · simp only [applyEvent, he]
        exact ⟨hvalid, hcu, hmm, htok0, htokc, hqn, hfn⟩
      · simp only [applyEvent, he]
        refine ⟨hvalid, hcu, hmm, htok0, htokc, ?_, hfn⟩
        intro u hu
        rcases mem_foldl_heappush.mp hu with h1 | h2
        · exact hqn u (by rw [hq]; exact List.mem_append_left _ h1)
        · exact hqn u (by rw [hq]; exact List.mem_append_right _ h2)
      · simp only [applyEvent, he]
        have htq : t ∈ s.queue := by
          rw [hq]
          exact List.mem_append_right _ (List.mem_cons_self _ _)
        have htn : costNonneg t.cost := hqn t htq
        obtain ⟨ha1, ha2, ha3⟩ := (can_afford_eq_true_iff s t.cost).mp haff
        have hapi : (0 : ℚ) ≤ (t.cost.api_calls : ℚ) := by
          exact_mod_cast htn.1
        refine ⟨hvalid, ha2, ha3, sub_nonneg.mpr ha1,
          show s.api_tokens - (t.cost.api_calls : ℚ)
              ≤ (s.budget.api_calls_per_minute : ℚ) by linarith, ?_, ?_⟩
        · intro u hu
          rcases mem_foldl_heappush.mp hu with h1 | h2
          · exact hqn u (by rw [hq]; exact List.mem_append_left _ h1)
          · exact hqn u
              (by rw [hq]; exact List.mem_append_right _ (List.mem_cons_of_mem _ h2))
        · intro u hu
          rcases List.mem_append.mp hu with h1 | h2
          · exact hfn u h1
          · rw [List.mem_singleton] at h2
            subst h2
            exact htn
  | finish i success =>
      simp only [applyEvent, CostAwareScheduler.finish]
      cases hgi : s.inFlight[i]? with
      | none => exact ⟨hvalid, hcu, hmm, htok0, htokc, hqn, hfn⟩
      | some t =>
          have hlt : i < s.inFlight.length := by
            by_contra hge
            rw [List.getElem?_eq_none (Nat.le_of_not_lt hge)] at hgi
            cases hgi
          have htmem : t ∈ s.inFlight := by
            rw [List.getElem?_eq_getElem hlt] at hgi
            obtain rfl : s.inFlight[i] = t := by simpa using hgi
            exact List.getElem_mem hlt
          have htn := hfn t htmem
          have hsub : ∀ u ∈ s.inFlight.eraseIdx i, u ∈ s.inFlight :=
            fun u hu => (List.eraseIdx_sublist s.inFlight i).mem hu
          have hcnn : (0 : ℚ) ≤ t.cost.compute_units := htn.2.1
          have hmnn : (0 : ℤ) ≤ t.cost.memory_mb := htn.2.2
          cases success <;>
            exact ⟨hvalid, le_trans (sub_le_self _ hcnn) hcu,
              le_trans (sub_le_self _ hmnn) hmm, htok0, htokc, hqn,
              fun u hu => hfn u (hsub u hu)⟩
  | refill now =>
      simp only [applyEvent, CostAwareScheduler.refill_tokens]
      have hel : s.last_refill ≤ now := by simpa [goodEvent] using hg
      have hcap : (0 : ℚ) < (s.budget.api_calls_per_minute : ℚ) := by
        exact_mod_cast hvalid.1
      have hadd : 0 ≤ ((s.budget.api_calls_per_minute : ℚ) / 60.0)
          * (now - s.last_refill) :=
        mul_nonneg (div_nonneg hcap.le (by norm_num)) (sub_nonneg.mpr hel)
      refine ⟨hvalid, hcu, hmm, ?_, min_le_right _ _, hqn, hfn⟩
      exact le_min (by linarith) hcap.le

/-- A whole good trace preserves the budget-safety invariant. -/
theorem schedInv_run :
    ∀ (es : List Event) (s : CostAwareScheduler),
      SchedInv s → goodTrace s es = true → SchedInv (run s es)
  | [], _, h, _ => h
  | e :: es, s, h, hg => by
      have hg' : goodEvent s e = true ∧ goodTrace (applyEvent s e) es = true := by
        simpa [goodTrace] using hg
      exact schedInv_run es (applyEvent s e)
        (schedInv_applyEvent s e h hg'.1) hg'.2

/-- C8: along every sequence of operations from a valid budget, with
nonnegative submitted costs and a monotone refill clock, compute and memory
usage never exceed the budget and the token count stays within
`[0, api_calls_per_minute]`. -/
theorem C8_budget_safety (b : ResourceBudget) (name : String) (t0 : ℚ)
    (es : List Event) (hb : b.valid)
    (hes : goodTrace (initState b name t0) es = true) :
    (run (initState b name t0) es).current_usage.compute_units
        ≤ (run (initState b name t0) es).budget.compute_units
    ∧ (run (initState b name t0) es).current_usage.memory_mb
        ≤ (run (initState b name t0) es).budget.memory_mb
    ∧ 0 ≤ (run (initState b name t0) es).api_tokens
    ∧ (run (initState b name t0) es).api_tokens
        ≤ ((run (initState b name t0) es).budget.api_calls_per_minute : ℚ) := by
  have h0 : SchedInv (initState b name t0) := by
    refine ⟨hb, hb.2.1.le, hb.2.2.le, ?_, le_refl _, ?_, ?_⟩
    · show (0 : ℚ) ≤ (b.api_calls_per_minute : ℚ)
      exact_mod_cast hb.1.le
    · intro t ht
      exact absurd ht (List.not_mem_nil t)
    · intro t ht
      exact absurd ht (List.not_mem_nil t)
  obtain ⟨-, h1, h2, h3, h4, -, -⟩ := schedInv_run es (initState b name t0) h0 hes
  exact ⟨h1, h2, h3, h4⟩

theorem C8_budget_safety_witness :
    (run (initState {} "default" 0) demoEvents).current_usage.compute_units
        ≤ (run (initState {} "default" 0) demoEvents).budget.compute_units
    ∧ (run (initState {} "default" 0) demoEvents).current_usage.memory_mb
        ≤ (run (initState {} "default" 0) demoEvents).budget.memory_mb
    ∧ 0 ≤ (run (initState {} "default" 0) demoEvents).api_tokens
    ∧ (run (initState {} "default" 0) demoEvents).api_tokens
        ≤ ((run (initState {} "default" 0) demoEvents).budget.api_calls_per_minute : ℚ) :=
  C8_budget_safety {} "default" 0 demoEvents
    (by
      refine ⟨?_, ?_, ?_⟩ <;> norm_num [ResourceBudget.valid])
    (by
      simp only [demoEvents, goodTrace, goodEvent, applyEvent,
        CostAwareScheduler.schedule, initState, Bool.false_and,
        Bool.false_eq_true, if_false, Bool.and_eq_true, decide_eq_true_eq]
      norm_num)
